import Mathlib

/-!
Verification development for `horovod/data/data_loader_base.py`
(`BaseDataLoader` / `AsyncDataLoaderMixin`).

The mixin runs one worker thread that pulls batches from `self._iterate()`
and pushes them into a bounded FIFO `Queue`; the consumer's `__iter__` pops
from the queue until it pops `None` (the terminal marker), re-raising any
popped `Exception`.  With a single producer and a single consumer over a
FIFO queue, the sequence of elements the consumer pops is exactly the
sequence the worker pushes, so we embed the pipeline by the worker's
enqueue trace (a list) and fold the consumer over that trace.  The queue
capacity bounds buffering only; it never changes which elements are seen
or their order, so it does not appear in the trace semantics.
-/

/-- A Python value travelling through the untyped queue: the `None`
sentinel, an `Exception` instance (identified by a numeric payload), or an
ordinary data object. -/
inductive PyVal : Type
  | pynone : PyVal
  | pyexn : Nat → PyVal
  | pyobj : Nat → PyVal
deriving DecidableEq

/-- `b` is ordinary data: neither the `None` sentinel nor an `Exception`
instance. -/
def PyVal.isData : PyVal → Bool
  | PyVal.pyobj _ => true
  | _ => false

/-- `BaseDataLoader._process_batch`: the post-processing hook; in the
source it returns the batch unchanged (trainers may override it, but the
code under verification is the identity hook). -/
def process_batch (b : PyVal) : PyVal := b

/-- One invocation of the source's `_iterate()` (`produce()` in the spec):
the batches it yields in order, and optionally a fault it raises after
yielding them all. -/
structure Pass : Type where
  batches : List PyVal
  fault : Option Nat
deriving DecidableEq

/-- The termination signal (`finished_event`): `is_set()` checks are
numbered from 0; `sig = some n` means the event is set from the `n`-th
check on (one-shot and monotone, as `threading.Event` is), `sig = none`
means it is never set during the modelled run. -/
def sigSet (sig : Option Nat) (c : Nat) : Bool :=
  match sig with
  | Option.none => false
  | Option.some n => decide (n ≤ c)

/-- The worker's inner loop, `for batch in self._iterate(): if
self.finished_event.is_set(): break; self.queue.put(batch)`.  `c` counts
`is_set()` checks made so far.  Returns the enqueued elements, the updated
check count, and whether the loop was broken by the signal (in which case
the batch just pulled is dropped and the rest of the pass, including any
pending fault, is never reached). -/
def innerLoop (sig : Option Nat) : Nat → List PyVal → List PyVal × Nat × Bool
  | c, [] => ([], c, false)
  | c, b :: rest =>
    if sigSet sig c then ([], c + 1, true)
    else
      let r := innerLoop sig (c + 1) rest
      (b :: r.1, r.2)

/-- How the worker thread ended (or is still going) after consuming the
supplied passes. -/
inductive ExitPath : Type
  | faulted : ExitPath
  | signalled : ExitPath
  | running : ExitPath
deriving DecidableEq

/-- `AsyncDataLoaderMixin._async_worker`: `while not finished: (inner
loop); queue.put(None)` wrapped in `try/except/finally`.  `ps` supplies the
result of each successive `self._iterate()` call; if the worker outlives
them reports `ExitPath.running` (the real thread would simply keep
pulling fresh passes).  On a fault the `except` clause enqueues the
exception and a `None`, and the `finally` clause enqueues a second `None`;
on a signal observed at the top of the `while`, only the `finally` `None`
is enqueued. -/
def workerLoop (sig : Option Nat) : Nat → List Pass → List PyVal × ExitPath
  | c, [] =>
    if sigSet sig c then ([PyVal.pynone], ExitPath.signalled)
    else ([], ExitPath.running)
  | c, p :: rest =>
    if sigSet sig c then ([PyVal.pynone], ExitPath.signalled)
    else
      let r := innerLoop sig (c + 1) p.batches
      match p.fault, r.2.2 with
      | Option.some e, false =>
        (r.1 ++ [PyVal.pyexn e, PyVal.pynone, PyVal.pynone], ExitPath.faulted)
      | _, _ =>
        let w := workerLoop sig r.2.1 rest
        (r.1 ++ PyVal.pynone :: w.1, w.2)

/-- The worker's full enqueue trace from thread start. -/
def workerRun (sig : Option Nat) (ps : List Pass) : List PyVal × ExitPath :=
  workerLoop sig 0 ps

/-- The async branch of `AsyncDataLoaderMixin.__iter__`: pop until `None`
(break), re-raise a popped `Exception`, otherwise yield
`_process_batch(batch)`.  Applied to the portion of the worker trace still
in / destined for the queue; returns the yielded batches, the exception
raised to the consumer (if any), and the unconsumed remainder of the
trace.  `Option.none` means the trace is exhausted before a terminator was
popped: with the worker permanently exited this is a `queue.get()` that
blocks forever. -/
def iterOnce : List PyVal → Option (List PyVal × Option Nat × List PyVal)
  | [] => Option.none
  | PyVal.pynone :: rest => Option.some ([], Option.none, rest)
  | PyVal.pyexn e :: rest => Option.some ([], Option.some e, rest)
  | PyVal.pyobj n :: rest =>
    match iterOnce rest with
    | Option.none => Option.none
    | Option.some t => Option.some (process_batch (PyVal.pyobj n) :: t.1, t.2)

/-- Remainder of the worker trace after `n` completed `__iter__` passes;
`Option.none` if some earlier pass already blocked forever. -/
def afterCalls : Nat → List PyVal → Option (List PyVal)
  | 0, tr => Option.some tr
  | Nat.succ n, tr =>
    match iterOnce tr with
    | Option.none => Option.none
    | Option.some t => afterCalls n t.2.2

/-- Outcome of the `n`-th (0-indexed) `__iter__` pass over a worker trace:
the batches it yields and the exception it raises, or `Option.none` if it
blocks forever. -/
def callResult (n : Nat) (tr : List PyVal) : Option (List PyVal × Option Nat) :=
  match afterCalls n tr with
  | Option.none => Option.none
  | Option.some rem =>
    match iterOnce rem with
    | Option.none => Option.none
    | Option.some t => Option.some (t.1, t.2.1)

/-- The synchronous branch of `__iter__` (`else: for batch in
self._iterate(): yield self._process_batch(batch)`): yields the processed
batches one by one; a source fault propagates directly to the caller. -/
def syncYield : List PyVal → List PyVal
  | [] => []
  | b :: rest => process_batch b :: syncYield rest

/-- One synchronous-mode iteration pass: yielded batches and propagated
fault. -/
def loaderIterSyncMode (p : Pass) : List PyVal × Option Nat :=
  (syncYield p.batches, p.fault)

/-- Modelled from the spec (refinement target for the synchronous mode):
"iteration pulls directly from the Sequence Source on the calling thread",
applying the post-processing hook to each batch; a source fault reaches
the caller directly. -/
def specSyncIterate (p : Pass) : List PyVal × Option Nat :=
  (p.batches.map process_batch, p.fault)

/-- `AsyncDataLoaderMixin.__iter__` for a single pass with the
termination signal never set: branches on `async_loader_queue_size > 0`
exactly as the source does.  In the async branch the consumer reads the
worker's trace for that single pass; in the sync branch it pulls directly.
Result: yielded batches and raised exception, `Option.none` = blocks. -/
def loaderIter (size : Int) (p : Pass) : Option (List PyVal × Option Nat) :=
  if 0 < size then
    match iterOnce (workerRun Option.none [p]).1 with
    | Option.none => Option.none
    | Option.some t => Option.some (t.1, t.2.1)
  else Option.some (loaderIterSyncMode p)

/-- Pipeline lifecycle state: `size` is `async_loader_queue_size`,
`hasWorker` records whether `__init__` created the queue / thread / event
(`size > 0`), `started` is the start-once flag, `threadStarts` counts
`thread.start()` calls, `finished` is the termination event. -/
structure LState : Type where
  size : Int
  hasWorker : Bool
  started : Bool
  threadStarts : Nat
  finished : Bool
deriving DecidableEq

/-- `AsyncDataLoaderMixin.__init__`: records the queue size and creates
the event, queue and thread only when `async_loader_queue_size > 0`. -/
def mkLoader (size : Int) : LState :=
  { size := size
    hasWorker := decide (0 < size)
    started := false
    threadStarts := 0
    finished := false }

/-- `__init__` as the caller sees it: the source performs no validation of
`async_loader_queue_size`, so construction always succeeds. -/
def initLoader (size : Int) : Except String LState :=
  Except.ok (mkLoader size)

/-- Lifecycle events a caller can perform: request iteration
(`__iter__`) or close the loader (`close_async_loader`). -/
inductive Ev : Type
  | iter : Ev
  | close : Ev
deriving DecidableEq

/-- Lifecycle transition: `__iter__` starts the thread on first use when
in async mode; `close_async_loader` sets the termination event only when
`async_loader_queue_size > 0 and self.started`, else it is a no-op. -/
def lifecycleStep (s : LState) : Ev → LState
  | Ev.iter =>
    if s.hasWorker then
      if s.started then s
      else { s with started := true, threadStarts := s.threadStarts + 1 }
    else s
  | Ev.close =>
    if s.hasWorker && s.started then { s with finished := true } else s

/-- Lifecycle state after a sequence of caller events on a freshly
constructed loader. -/
def runEvents (size : Int) (evs : List Ev) : LState :=
  evs.foldl lifecycleStep (mkLoader size)

/-- With the signal never set, the inner loop enqueues the whole pass. -/
theorem innerLoop_nosig (bs : List PyVal) : ∀ c,
    innerLoop Option.none c bs = (bs, c + bs.length, false) := by
  induction bs with
  | nil => intro c; simp [innerLoop]
  | cons b rest ih =>
    intro c
    simp [innerLoop, sigSet, ih (c + 1)]
    omega

/-- Worker trace of a single fault-free pass, signal never set. -/
theorem workerRun_single_nofault (bs : List PyVal) :
    workerRun Option.none [⟨bs, Option.none⟩]
      = (bs ++ [PyVal.pynone], ExitPath.running) := by
  simp [workerRun, workerLoop, sigSet, innerLoop_nosig]

/-- Worker trace of a single pass that faults after its batches, signal
never set: the exception, the `except`-clause marker, then the
`finally`-clause marker. -/
theorem workerRun_single_fault (bs : List PyVal) (e : Nat) :
    workerRun Option.none [⟨bs, Option.some e⟩]
      = (bs ++ [PyVal.pyexn e, PyVal.pynone, PyVal.pynone], ExitPath.faulted) := by
  simp [workerRun, workerLoop, sigSet, innerLoop_nosig]

/-- Consuming a queue whose front is a run of plain data batches yields
those batches (processed) in front of whatever the rest yields. -/
theorem iterOnce_append_data (pre : List PyVal) (rest : List PyVal)
    (h : ∀ b ∈ pre, b.isData = true) :
    iterOnce (pre ++ rest) =
      match iterOnce rest with
      | Option.none => Option.none
      | Option.some t => Option.some (pre ++ t.1, t.2) := by
  induction pre with
  | nil =>
    cases hr : iterOnce rest <;> simp [hr]
  | cons b pre ih =>
    have hb : b.isData = true := h b (List.mem_cons_self b pre)
    have hpre : ∀ x ∈ pre, x.isData = true := fun x hx => h x (List.mem_cons_of_mem b hx)
    cases b with
    | pynone => simp [PyVal.isData] at hb
    | pyexn e => simp [PyVal.isData] at hb
    | pyobj n =>
      have := ih hpre
      cases hr : iterOnce rest <;>
        simp [hr, iterOnce, this, process_batch]

/-- Consuming a queue holding plain data batches up to a `None`: the
consumer yields exactly those batches and stops cleanly at the marker. -/
theorem iterOnce_data_pynone (pre rest : List PyVal)
    (h : ∀ b ∈ pre, b.isData = true) :
    iterOnce (pre ++ PyVal.pynone :: rest) = Option.some (pre, Option.none, rest) := by
  have := iterOnce_append_data pre (PyVal.pynone :: rest) h
  simpa [iterOnce] using this

/-- Consuming a queue holding plain data batches up to an `Exception`:
the consumer yields exactly those batches, then raises it. -/
theorem iterOnce_data_pyexn (pre rest : List PyVal) (e : Nat)
    (h : ∀ b ∈ pre, b.isData = true) :
    iterOnce (pre ++ PyVal.pyexn e :: rest) = Option.some (pre, Option.some e, rest) := by
  have := iterOnce_append_data pre (PyVal.pyexn e :: rest) h
  simpa [iterOnce] using this

/-- Unfolding one consumer pass in `afterCalls`. -/
theorem afterCalls_succ (n : Nat) (tr : List PyVal) :
    afterCalls (n + 1) tr =
      match iterOnce tr with
      | Option.none => Option.none
      | Option.some t => afterCalls n t.2.2 := rfl

/-- A batch list made of plain data contains neither the `None` sentinel
nor an `Exception` instance. -/
theorem data_no_sentinel (bs : List PyVal) (h : ∀ b ∈ bs, b.isData = true) :
    PyVal.pynone ∉ bs := by
  intro hmem
  have := h PyVal.pynone hmem
  simp [PyVal.isData] at this

/-- Whenever the worker actually exits, the last element it enqueued is a
terminal marker (the `finally` clause guarantees it). -/
theorem workerLoop_exit_marker (sig : Option Nat) (ps : List Pass) : ∀ c,
    (workerLoop sig c ps).2 ≠ ExitPath.running →
    ∃ pre, (workerLoop sig c ps).1 = pre ++ [PyVal.pynone] := by
  induction ps with
  | nil =>
    intro c hex
    by_cases hs : sigSet sig c
    · exact ⟨[], by simp [workerLoop, hs]⟩
    · simp [workerLoop, hs] at hex
  | cons p rest ih =>
    intro c hex
    by_cases hs : sigSet sig c
    · exact ⟨[], by simp [workerLoop, hs]⟩
    · cases hf : p.fault with
      | some e =>
        cases hb : (innerLoop sig (c + 1) p.batches).2.2 with
        | false =>
          refine ⟨(innerLoop sig (c + 1) p.batches).1 ++ [PyVal.pyexn e, PyVal.pynone], ?_⟩
          simp [workerLoop, hs, hf, hb]
        | true =>
          have hex' : (workerLoop sig (innerLoop sig (c + 1) p.batches).2.1 rest).2
              ≠ ExitPath.running := by
            simpa [workerLoop, hs, hf, hb] using hex
          obtain ⟨pre, hpre⟩ := ih _ hex'
          refine ⟨(innerLoop sig (c + 1) p.batches).1 ++ PyVal.pynone :: pre, ?_⟩
          simp [workerLoop, hs, hf, hb, hpre]
      | none =>
        have hex' : (workerLoop sig (innerLoop sig (c + 1) p.batches).2.1 rest).2
            ≠ ExitPath.running := by
          simpa [workerLoop, hs, hf] using hex
        obtain ⟨pre, hpre⟩ := ih _ hex'
        refine ⟨(innerLoop sig (c + 1) p.batches).1 ++ PyVal.pynone :: pre, ?_⟩
        simp [workerLoop, hs, hf, hpre]

/-- When the worker exits through the fault path, its trace ends with the
exception followed by two terminal markers (`except` puts one, `finally`
puts another). -/
theorem workerLoop_fault_two_markers (sig : Option Nat) (ps : List Pass) : ∀ c,
    (workerLoop sig c ps).2 = ExitPath.faulted →
    ∃ pre e, (workerLoop sig c ps).1
      = pre ++ [PyVal.pyexn e, PyVal.pynone, PyVal.pynone] := by
  induction ps with
  | nil =>
    intro c hex
    by_cases hs : sigSet sig c <;> simp [workerLoop, hs] at hex
  | cons p rest ih =>
    intro c hex
    by_cases hs : sigSet sig c
    · simp [workerLoop, hs] at hex
    · cases hf : p.fault with
      | some e =>
        cases hb : (innerLoop sig (c + 1) p.batches).2.2 with
        | false =>
          exact ⟨(innerLoop sig (c + 1) p.batches).1, e, by simp [workerLoop, hs, hf, hb]⟩
        | true =>
          have hex' : (workerLoop sig (innerLoop sig (c + 1) p.batches).2.1 rest).2
              = ExitPath.faulted := by
            simpa [workerLoop, hs, hf, hb] using hex
          obtain ⟨pre, e', hpre⟩ := ih _ hex'
          refine ⟨(innerLoop sig (c + 1) p.batches).1 ++ PyVal.pynone :: pre, e', ?_⟩
          simp [workerLoop, hs, hf, hb, hpre]
      | none =>
        have hex' : (workerLoop sig (innerLoop sig (c + 1) p.batches).2.1 rest).2
            = ExitPath.faulted := by
          simpa [workerLoop, hs, hf] using hex
        obtain ⟨pre, e', hpre⟩ := ih _ hex'
        refine ⟨(innerLoop sig (c + 1) p.batches).1 ++ PyVal.pynone :: pre, e', ?_⟩
        simp [workerLoop, hs, hf, hpre]

/-- With no signal and no faults, every pass contributes its batches
followed by exactly one terminal marker, and the worker keeps running. -/
theorem workerLoop_nofault_join (ps : List Pass)
    (h : ∀ p ∈ ps, p.fault = Option.none) : ∀ c,
    workerLoop Option.none c ps
      = ((ps.map (fun p => p.batches ++ [PyVal.pynone])).flatten, ExitPath.running) := by
  induction ps with
  | nil => intro c; simp [workerLoop, sigSet]
  | cons p rest ih =>
    intro c
    have hf : p.fault = Option.none := h p (List.mem_cons_self p rest)
    have hrest : ∀ q ∈ rest, q.fault = Option.none :=
      fun q hq => h q (List.mem_cons_of_mem p hq)
    simp [workerLoop, sigSet, innerLoop_nosig, hf, ih hrest]

/-- `syncYield` is the identity composed with the (identity) hook. -/
theorem syncYield_eq_map (bs : List PyVal) : syncYield bs = bs.map process_batch := by
  induction bs with
  | nil => rfl
  | cons b rest ih => simp [syncYield, ih]

/-- With the identity hook of the source, `syncYield` yields the batches
unchanged. -/
theorem syncYield_id (bs : List PyVal) : syncYield bs = bs := by
  induction bs with
  | nil => rfl
  | cons b rest ih => simp [syncYield, process_batch, ih]

/-- Once the worker trace is exhausted, every further `__iter__` pass
blocks. -/
theorem afterCalls_nil : ∀ n, afterCalls n [] = if n = 0 then Option.some [] else Option.none := by
  intro n
  cases n with
  | zero => rfl
  | succ m => simp [afterCalls, iterOnce]

/-- No lifecycle event changes `hasWorker` (the queue/thread/event are
created only in `__init__`). -/
theorem lifecycleStep_hasWorker (s : LState) (e : Ev) :
    (lifecycleStep s e).hasWorker = s.hasWorker := by
  cases e <;> simp [lifecycleStep] <;> split <;> simp_all <;> split <;> simp_all

/-- The `started` flag is never reset by any event. -/
theorem lifecycleStep_started_mono (s : LState) (e : Ev) (h : s.started = true) :
    (lifecycleStep s e).started = true := by
  cases e <;> simp [lifecycleStep] <;> split <;> simp_all

/-- The termination event, once set, stays set. -/
theorem lifecycleStep_finished_mono (s : LState) (e : Ev) (h : s.finished = true) :
    (lifecycleStep s e).finished = true := by
  cases e <;> simp [lifecycleStep] <;> split <;> simp_all <;> split <;> simp_all

/-- After the worker has started, no event starts another thread. -/
theorem lifecycleStep_threadStarts_frozen (s : LState) (e : Ev) (h : s.started = true) :
    (lifecycleStep s e).threadStarts = s.threadStarts := by
  cases e <;> simp [lifecycleStep, h] <;> split <;> simp_all

/-- Folding events preserves `hasWorker`. -/
theorem foldl_hasWorker (evs : List Ev) : ∀ s : LState,
    (evs.foldl lifecycleStep s).hasWorker = s.hasWorker := by
  induction evs with
  | nil => intro s; rfl
  | cons e rest ih => intro s; simp [List.foldl_cons, ih, lifecycleStep_hasWorker]

/-- Folding events from a started state keeps it started with no further
thread starts. -/
theorem foldl_started_frozen (evs : List Ev) : ∀ s : LState, s.started = true →
    (evs.foldl lifecycleStep s).started = true
    ∧ (evs.foldl lifecycleStep s).threadStarts = s.threadStarts := by
  induction evs with
  | nil => intro s h; exact ⟨h, rfl⟩
  | cons e rest ih =>
    intro s h
    have h1 := lifecycleStep_started_mono s e h
    obtain ⟨a, b⟩ := ih (lifecycleStep s e) h1
    refine ⟨a, ?_⟩
    rw [List.foldl_cons] at *
    rw [b, lifecycleStep_threadStarts_frozen s e h]

/-- Folding events from a finished state keeps it finished. -/
theorem foldl_finished_mono (evs : List Ev) : ∀ s : LState, s.finished = true →
    (evs.foldl lifecycleStep s).finished = true := by
  induction evs with
  | nil => intro s h; exact h
  | cons e rest ih =>
    intro s h
    exact ih _ (lifecycleStep_finished_mono s e h)

/-- In synchronous mode (`hasWorker = false`) every event is a no-op. -/
theorem foldl_no_worker (evs : List Ev) : ∀ s : LState, s.hasWorker = false →
    evs.foldl lifecycleStep s = s := by
  induction evs with
  | nil => intro s _; rfl
  | cons e rest ih =>
    intro s h
    have hstep : lifecycleStep s e = s := by
      cases e <;> simp [lifecycleStep, h]
    rw [List.foldl_cons, hstep, ih s h]

/-- The thread-start count always equals the `started` flag read as 0/1:
the thread is started exactly when the flag flips. -/
theorem foldl_threadStarts_inv (evs : List Ev) : ∀ s : LState,
    s.threadStarts = (if s.started = true then 1 else 0) →
    (evs.foldl lifecycleStep s).threadStarts
      = (if (evs.foldl lifecycleStep s).started = true then 1 else 0) := by
  induction evs with
  | nil => intro s h; exact h
  | cons e rest ih =>
    intro s h
    refine ih (lifecycleStep s e) ?_
    cases e with
    | iter =>
      by_cases hw : s.hasWorker = true
      · by_cases hs : s.started = true
        · simpa [lifecycleStep, hw, hs] using h
        · have hs' : s.started = false := by simp_all
          have h0 : s.threadStarts = 0 := by simpa [hs'] using h
          simp [lifecycleStep, hw, hs', h0]
      · have hw' : s.hasWorker = false := by simp_all
        simpa [lifecycleStep, hw'] using h
    | close =>
      by_cases hc : (s.hasWorker && s.started) = true
      · simpa [lifecycleStep, hc] using h
      · simpa [lifecycleStep, hc] using h

/-- In asynchronous mode the flag is set exactly by the first `__iter__`
request: after any event sequence, `started` records whether some
iteration was requested. -/
theorem foldl_started_iff_iter (evs : List Ev) : ∀ s : LState, s.hasWorker = true →
    (evs.foldl lifecycleStep s).started = (s.started || decide (Ev.iter ∈ evs)) := by
  induction evs with
  | nil => intro s _; simp
  | cons e rest ih =>
    intro s hw
    cases e with
    | iter =>
      have hstarted : (lifecycleStep s Ev.iter).started = true := by
        by_cases hs : s.started = true <;> simp [lifecycleStep, hw, hs]
      have := (foldl_started_frozen rest (lifecycleStep s Ev.iter) hstarted).1
      rw [List.foldl_cons, this]
      simp
    | close =>
      have hw' : (lifecycleStep s Ev.close).hasWorker = true := by
        rw [lifecycleStep_hasWorker]; exact hw
      have hst : (lifecycleStep s Ev.close).started = s.started := by
        by_cases hc : (s.hasWorker && s.started) = true <;> simp [lifecycleStep, hc]
      rw [List.foldl_cons, ih _ hw', hst]
      simp









/-- C1 counterexample: a pass whose single batch is the value `None` is
swallowed by the sentinel check — the consumer yields the empty sequence,
not the sequence `[None]` that `produce()` yielded, so the claim as
universally stated fails. -/
theorem C1_counterexample :
    loaderIter 5 ⟨[PyVal.pynone], Option.none⟩ = Option.some ([], Option.none)
    ∧ ([] : List PyVal) ≠ [PyVal.pynone] := by decide

/-- C1 (amended): for every `queue_capacity > 0` and every finite
fault-free pass whose batches are all plain data (none is the `None`
sentinel or an `Exception` instance), one `iterate()` pass yields exactly
the batches of one `produce()` call, in order, raising nothing, and the
terminal marker is never among the yielded values. -/
theorem C1_async_order (size : Int) (bs : List PyVal)
    (hsize : 0 < size) (hdata : ∀ b ∈ bs, b.isData = true) :
    loaderIter size ⟨bs, Option.none⟩ = Option.some (bs, Option.none)
    ∧ PyVal.pynone ∉ bs := by
  constructor
  · have htr := workerRun_single_nofault bs
    have hit : iterOnce (bs ++ [PyVal.pynone]) = Option.some (bs, Option.none, []) :=
      iterOnce_data_pynone bs [] hdata
    simp [loaderIter, hsize, htr, hit]
  · exact data_no_sentinel bs hdata

/-- C1 witness at a concrete input. -/
theorem C1_async_order_witness :
    loaderIter 3 ⟨[PyVal.pyobj 1, PyVal.pyobj 2], Option.none⟩
      = Option.some ([PyVal.pyobj 1, PyVal.pyobj 2], Option.none)
    ∧ PyVal.pynone ∉ [PyVal.pyobj 1, PyVal.pyobj 2] :=
  C1_async_order 3 [PyVal.pyobj 1, PyVal.pyobj 2] (by decide) (by decide)

/-- C3 counterexample: the source yields the batch `None` and then
faults; the consumer stops at the `None` batch, yields nothing and never
surfaces the fault — refuting "yields exactly those k batches then
surfaces the fault". -/
theorem C3_counterexample :
    loaderIter 5 ⟨[PyVal.pynone], Option.some 7⟩ = Option.some ([], Option.none)
    ∧ Option.some (([] : List PyVal), (Option.none : Option Nat))
        ≠ Option.some ([PyVal.pynone], Option.some 7) := by decide

/-- C3 (amended): for every `queue_capacity > 0`, if the source faults
after producing `k` plain-data batches, the consumer yields exactly those
`k` batches in order and then the fault is re-raised on the consumer's
side, with no batches after it; in the queue the `Error` element is
enqueued immediately before a terminal marker (in fact before two of
them, see C2). -/
theorem C3_fault_order (size : Int) (bs : List PyVal) (e : Nat)
    (hsize : 0 < size) (hdata : ∀ b ∈ bs, b.isData = true) :
    loaderIter size ⟨bs, Option.some e⟩ = Option.some (bs, Option.some e)
    ∧ (workerRun Option.none [⟨bs, Option.some e⟩]).1
        = bs ++ [PyVal.pyexn e] ++ [PyVal.pynone] ++ [PyVal.pynone] := by
  have htr := workerRun_single_fault bs e
  constructor
  · have hit : iterOnce (bs ++ [PyVal.pyexn e, PyVal.pynone, PyVal.pynone])
        = Option.some (bs, Option.some e, [PyVal.pynone, PyVal.pynone]) :=
      iterOnce_data_pyexn bs [PyVal.pynone, PyVal.pynone] e hdata
    simp [loaderIter, hsize, htr, hit]
  · simp [htr]

/-- C3 witness at a concrete input. -/
theorem C3_fault_order_witness :
    loaderIter 2 ⟨[PyVal.pyobj 4], Option.some 9⟩
      = Option.some ([PyVal.pyobj 4], Option.some 9)
    ∧ (workerRun Option.none [⟨[PyVal.pyobj 4], Option.some 9⟩]).1
        = [PyVal.pyobj 4] ++ [PyVal.pyexn 9] ++ [PyVal.pynone] ++ [PyVal.pynone] :=
  C3_fault_order 2 [PyVal.pyobj 4] 9 (by decide) (by decide)

/-- C2 counterexample: on a fault exit the worker enqueues the exception
and then TWO terminal markers — one from the `except` clause and one from
the `finally` clause — refuting "exactly one TerminalMarker for that
exit, never two markers for the same exit". -/
theorem C2_counterexample :
    workerRun Option.none [⟨[], Option.some 0⟩]
      = ([PyVal.pyexn 0, PyVal.pynone, PyVal.pynone], ExitPath.faulted)
    ∧ List.count PyVal.pynone [PyVal.pyexn 0, PyVal.pynone, PyVal.pynone] = 2 := by
  decide

/-- C2 (amended): the worker enqueues exactly one terminal marker per
completed pass, and on every exit its trace ends with at least one
terminal marker (the `finally` clause), so a blocked consumer always
unblocks; however a fault exit enqueues the error followed by exactly two
terminal markers (`except` clause plus `finally` clause), not one. -/
theorem C2_markers (sig : Option Nat) (ps : List Pass) (c : Nat) :
    ((workerLoop sig c ps).2 ≠ ExitPath.running →
      ∃ pre, (workerLoop sig c ps).1 = pre ++ [PyVal.pynone])
    ∧ ((workerLoop sig c ps).2 = ExitPath.faulted →
      ∃ pre e, (workerLoop sig c ps).1
        = pre ++ [PyVal.pyexn e, PyVal.pynone, PyVal.pynone])
    ∧ ((∀ p ∈ ps, p.fault = Option.none) →
      workerLoop Option.none c ps
        = ((ps.map (fun p => p.batches ++ [PyVal.pynone])).flatten, ExitPath.running)) :=
  ⟨workerLoop_exit_marker sig ps c, workerLoop_fault_two_markers sig ps c,
   fun h => workerLoop_nofault_join ps h c⟩

/-- C2 witness at a concrete input (a fault exit). -/
theorem C2_markers_witness :
    (∃ pre, (workerLoop Option.none 0 [⟨[], Option.some 0⟩]).1
      = pre ++ [PyVal.pynone])
    ∧ (∃ pre e, (workerLoop Option.none 0 [⟨[], Option.some 0⟩]).1
      = pre ++ [PyVal.pyexn e, PyVal.pynone, PyVal.pynone]) :=
  ⟨(C2_markers Option.none [⟨[], Option.some 0⟩] 0).1 (by decide),
   (C2_markers Option.none [⟨[], Option.some 0⟩] 0).2.1 (by decide)⟩

/-- C4 counterexample: after a source fault kills the worker, only the
next two `iterate()` calls drain the two leftover markers; the third
subsequent call finds the queue permanently empty and blocks forever —
refuting "for all subsequent calls". -/
theorem C4_counterexample :
    callResult 3 ((workerRun Option.none [⟨[], Option.some 0⟩]).1) = Option.none := by
  decide

/-- C4 (amended): after the source faults following `k` plain-data
batches, the in-flight `iterate()` yields those batches then re-raises
the fault; exactly the next two calls end as clean empty sequences (they
pop the two leftover terminal markers), and every call after that blocks
forever, since the worker has permanently exited and the queue stays
empty. -/
theorem C4_after_fault (bs : List PyVal) (e : Nat)
    (hdata : ∀ b ∈ bs, b.isData = true) :
    callResult 0 ((workerRun Option.none [⟨bs, Option.some e⟩]).1)
      = Option.some (bs, Option.some e)
    ∧ callResult 1 ((workerRun Option.none [⟨bs, Option.some e⟩]).1)
      = Option.some ([], Option.none)
    ∧ callResult 2 ((workerRun Option.none [⟨bs, Option.some e⟩]).1)
      = Option.some ([], Option.none)
    ∧ ∀ n : Nat, callResult (n + 3) ((workerRun Option.none [⟨bs, Option.some e⟩]).1)
      = Option.none := by
  have htr := workerRun_single_fault bs e
  have hit : iterOnce (bs ++ [PyVal.pyexn e, PyVal.pynone, PyVal.pynone])
      = Option.some (bs, Option.some e, [PyVal.pynone, PyVal.pynone]) :=
    iterOnce_data_pyexn bs [PyVal.pynone, PyVal.pynone] e hdata
  refine ⟨?_, ?_, ?_, ?_⟩
  · simp [callResult, afterCalls, htr, hit]
  · simp [callResult, afterCalls, htr, hit, iterOnce]
  · simp [callResult, afterCalls, htr, hit, iterOnce]
  · intro n
    have h3 : afterCalls (n + 3) ((workerRun Option.none [⟨bs, Option.some e⟩]).1)
        = afterCalls n [] := by
      rw [htr]
      rw [show n + 3 = (n + 2) + 1 from rfl, afterCalls_succ, hit]
      show afterCalls (n + 2) [PyVal.pynone, PyVal.pynone] = afterCalls n []
      rw [show n + 2 = (n + 1) + 1 from rfl, afterCalls_succ]
      show afterCalls (n + 1) [PyVal.pynone] = afterCalls n []
      rw [afterCalls_succ]
      rfl
    cases n with
    | zero =>
      simp only [callResult, h3]
      simp [afterCalls, iterOnce]
    | succ m =>
      simp only [callResult, h3]
      simp [afterCalls, iterOnce]

/-- C4 witness at a concrete input: the sixth call blocks. -/
theorem C4_after_fault_witness :
    callResult 5 ((workerRun Option.none [⟨[PyVal.pyobj 0], Option.some 1⟩]).1)
      = Option.none :=
  (C4_after_fault [PyVal.pyobj 0] 1 (by decide)).2.2.2 2

/-- C5 counterexample: `__init__` performs no validation of the queue
size, so a negative `queue_capacity` does NOT fail fast — construction
succeeds and, since the `> 0` test fails, the loader is a plain
synchronous pipeline with no queue, worker or signal. -/
theorem C5_counterexample :
    initLoader (-3) = Except.ok (mkLoader (-3))
    ∧ (mkLoader (-3)).hasWorker = false := by
  exact ⟨rfl, by decide⟩

/-- C5 (amended): for every negative `queue_capacity`, construction
succeeds without any error and produces a pipeline in synchronous mode:
no queue, worker thread or termination event is created, and every
lifecycle event on it is a no-op. -/
theorem C5_negative_sync (size : Int) (h : size < 0) :
    initLoader size = Except.ok (mkLoader size)
    ∧ (mkLoader size).hasWorker = false
    ∧ ∀ evs : List Ev, runEvents size evs = mkLoader size := by
  have hw : (mkLoader size).hasWorker = false := by
    simp [mkLoader]
    omega
  exact ⟨rfl, hw, fun evs => foldl_no_worker evs (mkLoader size) hw⟩

/-- C5 witness at a concrete input. -/
theorem C5_negative_sync_witness :
    initLoader (-5) = Except.ok (mkLoader (-5))
    ∧ (mkLoader (-5)).hasWorker = false
    ∧ ∀ evs : List Ev, runEvents (-5) evs = mkLoader (-5) :=
  C5_negative_sync (-5) (by decide)

/-- C6 (confirmed): with `queue_capacity == 0` no queue, worker or signal
is created, no iteration request ever starts a worker thread, and one
iteration pass yields exactly what direct synchronous pulling from the
source with the post-processing hook yields (faults propagate
unchanged). -/
theorem C6_sync_equiv (p : Pass) :
    loaderIterSyncMode p = specSyncIterate p
    ∧ loaderIter 0 p = Option.some (specSyncIterate p)
    ∧ (mkLoader 0).hasWorker = false
    ∧ ∀ evs : List Ev, (runEvents 0 evs).threadStarts = 0 := by
  have hw : (mkLoader 0).hasWorker = false := by decide
  refine ⟨?_, ?_, hw, ?_⟩
  · simp [loaderIterSyncMode, specSyncIterate, syncYield_eq_map]
  · simp [loaderIter, loaderIterSyncMode, specSyncIterate, syncYield_eq_map]
  · intro evs
    rw [runEvents, foldl_no_worker evs (mkLoader 0) hw]
    rfl

/-- C7 counterexample: `close_async_loader()` called before any
`iterate()` is a no-op (the guard requires `started`), and a subsequent
`iterate()` still launches the worker thread — so `Closed` is not
absorbing, nor even entered, from the `Created` state. -/
theorem C7_counterexample :
    (runEvents 5 [Ev.close]).started = false
    ∧ (runEvents 5 [Ev.close]).finished = false
    ∧ (runEvents 5 [Ev.close, Ev.iter]).threadStarts = 1 := by decide

/-- C7 (amended): only once the worker has started does `close()` close
the pipeline; from any such state, after `close()` the termination event
is set and remains set through any further events, and no further worker
thread is ever started. -/
theorem C7_close_absorbing (size : Int) (evs more : List Ev)
    (h : (runEvents size evs).started = true) :
    (runEvents size (evs ++ Ev.close :: more)).finished = true
    ∧ (runEvents size (evs ++ Ev.close :: more)).threadStarts
      = (runEvents size evs).threadStarts := by
  have hw : (runEvents size evs).hasWorker = true := by
    by_cases hw0 : (mkLoader size).hasWorker = true
    · rw [runEvents, foldl_hasWorker]
      exact hw0
    · exfalso
      have hf : (mkLoader size).hasWorker = false := by simp_all
      have hid := foldl_no_worker evs (mkLoader size) hf
      rw [runEvents, hid] at h
      simp [mkLoader] at h
  have hstep : lifecycleStep (runEvents size evs) Ev.close
      = { runEvents size evs with finished := true } := by
    simp [lifecycleStep, hw, h]
  have hsplit : runEvents size (evs ++ Ev.close :: more)
      = more.foldl lifecycleStep (lifecycleStep (runEvents size evs) Ev.close) := by
    simp [runEvents, List.foldl_append]
  constructor
  · rw [hsplit, hstep]
    exact foldl_finished_mono more _ rfl
  · rw [hsplit, hstep]
    have hs' : ({ runEvents size evs with finished := true } : LState).started = true := h
    exact (foldl_started_frozen more _ hs').2

/-- C7 witness at a concrete input. -/
theorem C7_close_absorbing_witness :
    (runEvents 4 ([Ev.iter] ++ Ev.close :: [Ev.iter])).finished = true
    ∧ (runEvents 4 ([Ev.iter] ++ Ev.close :: [Ev.iter])).threadStarts
      = (runEvents 4 [Ev.iter]).threadStarts :=
  C7_close_absorbing 4 [Ev.iter] [Ev.iter] (by decide)

/-- C8 (confirmed): over every event sequence the worker thread is
started at most once; the `started` flag is never reset once true; and in
asynchronous mode it is true exactly when some iteration has been
requested (it flips on the first `iterate()` and on nothing else). -/
theorem C8_start_once (size : Int) (evs more : List Ev) :
    (runEvents size evs).threadStarts ≤ 1
    ∧ ((runEvents size evs).started = true →
        (runEvents size (evs ++ more)).started = true)
    ∧ ((mkLoader size).hasWorker = true →
        (runEvents size evs).started = decide (Ev.iter ∈ evs)) := by
  refine ⟨?_, ?_, ?_⟩
  · have hinv := foldl_threadStarts_inv evs (mkLoader size) (by simp [mkLoader])
    rw [runEvents, hinv]
    split <;> omega
  · intro h
    rw [runEvents, List.foldl_append]
    exact (foldl_started_frozen more _ h).1
  · intro hw
    have hiff := foldl_started_iff_iter evs (mkLoader size) hw
    rw [runEvents, hiff]
    simp [mkLoader]

/-- C8 witness at a concrete input. -/
theorem C8_start_once_witness :
    (runEvents 7 [Ev.iter, Ev.iter]).threadStarts ≤ 1
    ∧ (runEvents 7 ([Ev.iter, Ev.iter] ++ [Ev.close])).started = true
    ∧ (runEvents 7 [Ev.iter, Ev.iter]).started = decide (Ev.iter ∈ [Ev.iter, Ev.iter]) :=
  ⟨(C8_start_once 7 [Ev.iter, Ev.iter] [Ev.close]).1,
   (C8_start_once 7 [Ev.iter, Ev.iter] [Ev.close]).2.1 (by decide),
   (C8_start_once 7 [Ev.iter, Ev.iter] [Ev.close]).2.2 (by decide)⟩

/-- C9 counterexample: a pass whose batches are an `Exception` instance
followed by `None` contains `None` at position 1, yet the consumer
observes zero batches and the pass ends by re-raising the position-0
batch, not by ending early after "the first 1 batches" — the claim as
universally stated fails when an `Exception` batch precedes the first
`None`. -/
theorem C9_counterexample :
    loaderIter 5 ⟨[PyVal.pyexn 0, PyVal.pynone], Option.none⟩
      = Option.some ([], Option.some 0)
    ∧ Option.some (([] : List PyVal), (Option.some 0 : Option Nat))
        ≠ Option.some ([PyVal.pyexn 0], (Option.none : Option Nat)) := by decide

/-- C9 (amended): if a fault-free pass is `pre ++ None :: post` with
`pre` all plain data (so the `None` batch at position `i = |pre|` is the
first sentinel-colliding batch), the asynchronous consumer observes
exactly `pre` and the pass ends early and cleanly, dropping the `None`
and everything after it, whereas synchronous mode yields every batch
including the `None`. -/
theorem C9_none_sentinel (size : Int) (pre post : List PyVal)
    (hsize : 0 < size) (hdata : ∀ b ∈ pre, b.isData = true) :
    loaderIter size ⟨pre ++ PyVal.pynone :: post, Option.none⟩
      = Option.some (pre, Option.none)
    ∧ loaderIterSyncMode ⟨pre ++ PyVal.pynone :: post, Option.none⟩
      = (pre ++ PyVal.pynone :: post, Option.none) := by
  constructor
  · have htr := workerRun_single_nofault (pre ++ PyVal.pynone :: post)
    have hassoc : (pre ++ PyVal.pynone :: post) ++ [PyVal.pynone]
        = pre ++ PyVal.pynone :: (post ++ [PyVal.pynone]) := by simp
    have hit := iterOnce_data_pynone pre (post ++ [PyVal.pynone]) hdata
    rw [hassoc] at htr
    simp [loaderIter, hsize, htr, hit]
  · simp [loaderIterSyncMode, syncYield_id]

/-- C9 witness at a concrete input. -/
theorem C9_none_sentinel_witness :
    loaderIter 1 ⟨[PyVal.pyobj 2] ++ PyVal.pynone :: [PyVal.pyobj 3], Option.none⟩
      = Option.some ([PyVal.pyobj 2], Option.none)
    ∧ loaderIterSyncMode ⟨[PyVal.pyobj 2] ++ PyVal.pynone :: [PyVal.pyobj 3], Option.none⟩
      = ([PyVal.pyobj 2] ++ PyVal.pynone :: [PyVal.pyobj 3], Option.none) :=
  C9_none_sentinel 1 [PyVal.pyobj 2] [PyVal.pyobj 3] (by decide) (by decide)

/-- C10 counterexample: when a `None` batch precedes the
`Exception`-valued batch, the consumer ends the pass at the `None` and the
`Exception` batch is never raised (nor yielded) — the claim's "any batch
that is an instance of Exception is raised to the consumer" fails. -/
theorem C10_counterexample :
    loaderIter 5 ⟨[PyVal.pynone, PyVal.pyexn 5], Option.none⟩
      = Option.some ([], Option.none)
    ∧ Option.some (([] : List PyVal), (Option.none : Option Nat))
        ≠ Option.some (([] : List PyVal), (Option.some 5 : Option Nat)) := by decide

/-- C10 (amended): a batch that is an `Exception` instance and is
preceded only by plain-data batches is raised to the asynchronous
consumer as a failure instead of being yielded (everything after it is
dropped), while synchronous mode yields the very same batch normally —
the two modes diverge on `Exception`-valued batches. -/
theorem C10_exn_batch (size : Int) (pre post : List PyVal) (e : Nat)
    (hsize : 0 < size) (hdata : ∀ b ∈ pre, b.isData = true) :
    loaderIter size ⟨pre ++ PyVal.pyexn e :: post, Option.none⟩
      = Option.some (pre, Option.some e)
    ∧ loaderIterSyncMode ⟨pre ++ PyVal.pyexn e :: post, Option.none⟩
      = (pre ++ PyVal.pyexn e :: post, Option.none) := by
  constructor
  · have htr := workerRun_single_nofault (pre ++ PyVal.pyexn e :: post)
    have hassoc : (pre ++ PyVal.pyexn e :: post) ++ [PyVal.pynone]
        = pre ++ PyVal.pyexn e :: (post ++ [PyVal.pynone]) := by simp
    have hit := iterOnce_data_pyexn pre (post ++ [PyVal.pynone]) e hdata
    rw [hassoc] at htr
    simp [loaderIter, hsize, htr, hit]
  · simp [loaderIterSyncMode, syncYield_id]

/-- C10 witness at a concrete input. -/
theorem C10_exn_batch_witness :
    loaderIter 2 ⟨[PyVal.pyobj 6] ++ PyVal.pyexn 8 :: [PyVal.pyobj 7], Option.none⟩
      = Option.some ([PyVal.pyobj 6], Option.some 8)
    ∧ loaderIterSyncMode ⟨[PyVal.pyobj 6] ++ PyVal.pyexn 8 :: [PyVal.pyobj 7], Option.none⟩
      = ([PyVal.pyobj 6] ++ PyVal.pyexn 8 :: [PyVal.pyobj 7], Option.none) :=
  C10_exn_batch 2 [PyVal.pyobj 6] [PyVal.pyobj 7] 8 (by decide) (by decide)
